import Mathlib

/-!
Shallow embedding of the PayStream contracts (StreamManager.sol and
YieldVault.sol) and theorems checking the specification's claims about them.

Conventions of the embedding:
- Addresses are naturals; 0 plays the role of the zero address.
- Solidity 0.8 checked uint256/uint128/uint64/uint32 arithmetic is modelled
  over Nat.  Checked subtraction appears only as timestamp differences
  (now − checkpoint) and as net = gross − tax; theorems carry the hypotheses
  (checkpoint ≤ now, taxBps ≤ 10000) under which the Solidity code does not
  revert, and on that domain Nat subtraction agrees with the source.
  Timestamps are assumed below 2^64, so the uint64 casts do not truncate.
- A reverting call is an Except.error carrying the contract's custom error;
  an error returns no state, mirroring the EVM's all-or-nothing rollback.
- ERC-20 transfers are assumed to succeed (the HLUSD mock never returns
  false); each operation reports the outgoing (recipient, amount) transfers
  it performs so that theorems can speak about moved funds.
-/

namespace PayStream

/-- Account addresses, as naturals; 0 is the zero address. -/
abbrev Addr := Nat

/-- One payment stream (struct Stream in StreamManager.sol). -/
structure Stream where
  employee : Addr
  ratePerSecond : Nat
  lastCheckpoint : Nat
  taxBps : Nat
  active : Bool
  paused : Bool
  bonusAmount : Nat
  bonusReleaseTime : Nat
  bonusClaimed : Bool
deriving DecidableEq

/-- The Solidity mapping default: an all-zero, inactive stream. -/
instance : Inhabited Stream :=
  ⟨⟨0, 0, 0, 0, false, false, 0, 0, false⟩⟩

/-- Custom errors of StreamManager.sol and YieldVault.sol. -/
inductive Err where
  | ZeroAddress
  | ZeroAmount
  | StreamInactive (streamId : Nat)
  | InvalidRate (rate : Nat)
  | InvalidTaxBps (taxBps : Nat)
  | TransferFailed
  | SignatureExpired
  | InvalidNonce
  | InvalidSignature
  | InsufficientSponsorship
  | NothingToWithdraw
  | InvalidBatchSize
  | ReleaseInPast
  | AlreadyPaused (streamId : Nat)
  | NotPaused (streamId : Nat)
  | InsufficientBalance (requested available : Nat)
  | RateTooHigh (bps : Nat)
deriving DecidableEq

/-- State of YieldVault.sol. -/
structure VaultState where
  totalPrincipal : Nat
  yieldRateBps : Nat
  lastUpdate : Nat
  accumulatedYield : Nat
deriving DecidableEq

/-- Solidity `365 days` in seconds. -/
def secondsPerYear : Nat := 365 * 24 * 60 * 60

/-- YieldVault.MAX_YIELD_BPS. -/
def MAX_YIELD_BPS : Nat := 10000

/-- YieldVault._pendingYield: simulated yield pending since lastUpdate. -/
def pendingYield (v : VaultState) (now : Nat) : Nat :=
  if v.totalPrincipal = 0 ∨ v.yieldRateBps = 0 then 0
  else
    let elapsed := now - v.lastUpdate
    if elapsed = 0 then 0
    else v.totalPrincipal * v.yieldRateBps * elapsed / (10000 * secondsPerYear)

/-- YieldVault._simulateYield: fold pending yield into accumulatedYield and
advance lastUpdate. -/
def simulateYield (v : VaultState) (now : Nat) : VaultState :=
  let pending := pendingYield v now
  let v1 :=
    if 0 < pending then { v with accumulatedYield := v.accumulatedYield + pending } else v
  { v1 with lastUpdate := now }

/-- YieldVault.deposit. -/
def vaultDeposit (v : VaultState) (amount now : Nat) : Except Err VaultState :=
  if amount = 0 then .error .ZeroAmount
  else
    let v1 := simulateYield v now
    .ok { v1 with totalPrincipal := v1.totalPrincipal + amount }

/-- YieldVault.withdraw: accrues yield, checks the balance, deducts from
accumulated yield first and then principal, and transfers `amount` to the
recipient `dst` (the source's parameter `to`; the transfer is reported as the
(dst, amount) component of the result). -/
def vaultWithdraw (v : VaultState) (amount : Nat) (dst : Addr) (now : Nat) :
    Except Err (VaultState × Addr × Nat) :=
  if amount = 0 then .error .ZeroAmount
  else if dst = 0 then .error .ZeroAddress
  else
    let v1 := simulateYield v now
    let available := v1.totalPrincipal + v1.accumulatedYield
    if available < amount then .error (.InsufficientBalance amount available)
    else if amount ≤ v1.accumulatedYield then
      .ok ({ v1 with accumulatedYield := v1.accumulatedYield - amount }, dst, amount)
    else
      .ok ({ v1 with
               accumulatedYield := 0,
               totalPrincipal := v1.totalPrincipal - (amount - v1.accumulatedYield) },
           dst, amount)

/-- YieldVault.setYieldRate: accrues at the old rate, then switches. -/
def setYieldRate (v : VaultState) (bps now : Nat) : Except Err VaultState :=
  if MAX_YIELD_BPS < bps then .error (.RateTooHigh bps)
  else .ok { simulateYield v now with yieldRateBps := bps }

/-- YieldVault.currentBalance (view): principal + accumulated + live pending
yield, computed without mutating the vault state. -/
def currentBalance (v : VaultState) (now : Nat) : Nat :=
  v.totalPrincipal + v.accumulatedYield + pendingYield v now

/-- Input for batch stream creation (struct StreamInput). -/
structure StreamInput where
  employee : Addr
  ratePerSecond : Nat
  taxBps : Nat
deriving DecidableEq

/-- State of StreamManager.sol.  `self` is address(this), the recipient used
when pulling funds out of the YieldVault. -/
structure ManagerState where
  self : Addr
  taxVault : Addr
  vault : VaultState
  nextStreamId : Nat
  sponsorshipPool : Nat
  streams : Nat → Stream
  nonces : Addr → Nat

instance : Inhabited ManagerState :=
  ⟨⟨0, 0, ⟨0, 0, 0, 0⟩, 0, 0, fun _ => default, fun _ => 0⟩⟩

/-- StreamManager.MAX_BATCH. -/
def MAX_BATCH : Nat := 200

/-- StreamManager.MAX_TAX_BPS. -/
def MAX_TAX_BPS : Nat := 10000

/-- StreamManager.MAX_RATE (1000e18). -/
def MAX_RATE : Nat := 1000 * 10 ^ 18

/-- Write one stream slot of the streams mapping. -/
def setStream (st : ManagerState) (id : Nat) (s : Stream) : ManagerState :=
  { st with streams := fun j => if j = id then s else st.streams j }

/-- Write one slot of the nonces mapping. -/
def setNonce (st : ManagerState) (a : Addr) (n : Nat) : ManagerState :=
  { st with nonces := fun b => if b = a then n else st.nonces b }

/-- StreamManager._validateStreamParams. -/
def validateStreamParams (employee : Addr) (ratePerSecond taxBps : Nat) : Except Err Unit :=
  if employee = 0 then .error .ZeroAddress
  else if ratePerSecond = 0 ∨ MAX_RATE < ratePerSecond then .error (.InvalidRate ratePerSecond)
  else if MAX_TAX_BPS < taxBps then .error (.InvalidTaxBps taxBps)
  else .ok ()

/-- StreamManager.createStream. -/
def createStream (st : ManagerState) (employee : Addr) (ratePerSecond taxBps now : Nat) :
    Except Err ManagerState :=
  match validateStreamParams employee ratePerSecond taxBps with
  | .error e => .error e
  | .ok _ =>
    .ok { setStream st st.nextStreamId
            ⟨employee, ratePerSecond, now, taxBps, true, false, 0, 0, false⟩ with
          nextStreamId := st.nextStreamId + 1 }

/-- The loop body of StreamManager.batchCreateStreams: validate and create
each entry in order, all with the one shared checkpoint. -/
def batchLoop (st : ManagerState) (inputs : List StreamInput) (checkpoint : Nat) :
    Except Err ManagerState :=
  match inputs with
  | [] => .ok st
  | inp :: rest =>
    match validateStreamParams inp.employee inp.ratePerSecond inp.taxBps with
    | .error e => .error e
    | .ok _ =>
      batchLoop
        { setStream st st.nextStreamId
            ⟨inp.employee, inp.ratePerSecond, checkpoint, inp.taxBps, true, false, 0, 0, false⟩ with
          nextStreamId := st.nextStreamId + 1 }
        rest checkpoint

/-- StreamManager.batchCreateStreams. -/
def batchCreateStreams (st : ManagerState) (inputs : List StreamInput) (now : Nat) :
    Except Err ManagerState :=
  if inputs.length = 0 ∨ MAX_BATCH < inputs.length then .error .InvalidBatchSize
  else batchLoop st inputs now

/-- StreamManager.scheduleBonus. -/
def scheduleBonus (st : ManagerState) (streamId amount releaseTime now : Nat) :
    Except Err ManagerState :=
  let s := st.streams streamId
  if s.active = false then .error (.StreamInactive streamId)
  else if amount = 0 then .error .ZeroAmount
  else if releaseTime ≤ now then .error .ReleaseInPast
  else .ok (setStream st streamId
    { s with bonusAmount := amount, bonusReleaseTime := releaseTime, bonusClaimed := false })

/-- StreamManager.pauseStream. -/
def pauseStream (st : ManagerState) (streamId now : Nat) : Except Err ManagerState :=
  let s := st.streams streamId
  if s.active = false then .error (.StreamInactive streamId)
  else if s.paused = true then .error (.AlreadyPaused streamId)
  else .ok (setStream st streamId { s with lastCheckpoint := now, paused := true })

/-- StreamManager.resumeStream. -/
def resumeStream (st : ManagerState) (streamId now : Nat) : Except Err ManagerState :=
  let s := st.streams streamId
  if s.active = false then .error (.StreamInactive streamId)
  else if s.paused = false then .error (.NotPaused streamId)
  else .ok (setStream st streamId { s with lastCheckpoint := now, paused := false })

/-- StreamManager.cancelStream. -/
def cancelStream (st : ManagerState) (streamId now : Nat) : Except Err ManagerState :=
  let s := st.streams streamId
  if s.active = false then .error (.StreamInactive streamId)
  else .ok (setStream st streamId { s with lastCheckpoint := now, active := false })

/-- Record of one withdrawal settlement: the computed amounts, the total
pulled from the YieldVault, and the outgoing HLUSD transfers
(recipient, amount) performed by the manager, in order. -/
structure WRec where
  gross : Nat
  tax : Nat
  net : Nat
  vaultPulled : Nat
  transfers : List (Addr × Nat)
deriving DecidableEq

instance : Inhabited WRec := ⟨⟨0, 0, 0, 0, []⟩⟩

/-- StreamManager._executeWithdraw: the core withdraw logic shared by
withdraw() and withdrawSigned(). -/
def executeWithdraw (st : ManagerState) (streamId now : Nat) :
    Except Err (ManagerState × WRec) :=
  let s := st.streams streamId
  if s.active = false then .error (.StreamInactive streamId)
  else if s.paused = true then .error (.AlreadyPaused streamId)
  else
    let accrued := s.ratePerSecond * (now - s.lastCheckpoint)
    let bp : Nat × Stream :=
      if 0 < s.bonusAmount ∧ s.bonusReleaseTime ≤ now ∧ s.bonusClaimed = false
      then (s.bonusAmount, { s with bonusClaimed := true })
      else (0, s)
    let gross := accrued + bp.1
    if gross = 0 then .error .NothingToWithdraw
    else
      let tax := accrued * s.taxBps / 10000
      let net := gross - tax
      let totalPayout := net + tax
      let s2 := { bp.2 with lastCheckpoint := now }
      match vaultWithdraw st.vault totalPayout st.self now with
      | .error e => .error e
      | .ok (v1, _, _) =>
        .ok ({ setStream st streamId s2 with vault := v1 },
             ⟨gross, tax, net, totalPayout,
              (if 0 < tax then [(st.taxVault, tax)] else []) ++ [(s2.employee, net)]⟩)

/-- StreamManager.withdraw: the direct path is exactly the core logic. -/
def withdraw (st : ManagerState) (streamId now : Nat) :
    Except Err (ManagerState × WRec) :=
  executeWithdraw st streamId now

/-- An EIP-712 withdrawal signature: the signer together with the payload
(streamId, nonce, deadline) the digest was produced over. -/
structure Sig where
  signer : Addr
  streamId : Nat
  nonce : Nat
  deadline : Nat
deriving DecidableEq

/-- Modelled from the spec: keccak256 + ECDSA.recover (OpenZeppelin, outside
src/) over the EIP-712 digest of (streamId, nonce, deadline) under the
PayStream domain.  The idealisation is collision-free recovery: a signature
recovers to its signer exactly when it was produced over this payload, and
to the zero address otherwise. -/
def recover (streamId nonce deadline : Nat) (sig : Sig) : Addr :=
  if sig.streamId = streamId ∧ sig.nonce = nonce ∧ sig.deadline = deadline
  then sig.signer else 0

/-- StreamManager.withdrawSigned: gasless meta-transaction path.  The third
component of a successful result is the full list of outgoing transfers of
the call (the core withdrawal's transfers, then the relayer fee if any). -/
def withdrawSigned (st : ManagerState) (streamId nonce deadline relayerFee : Nat)
    (sig : Sig) (relayer : Addr) (now : Nat) :
    Except Err (ManagerState × WRec × List (Addr × Nat)) :=
  if deadline < now then .error .SignatureExpired
  else
    let employee := (st.streams streamId).employee
    if nonce ≠ st.nonces employee then .error .InvalidNonce
    else if recover streamId nonce deadline sig ≠ employee then .error .InvalidSignature
    else
      match executeWithdraw (setNonce st employee (nonce + 1)) streamId now with
      | .error e => .error e
      | .ok (st2, rec) =>
        if 0 < relayerFee then
          if st2.sponsorshipPool < relayerFee then .error .InsufficientSponsorship
          else .ok ({ st2 with sponsorshipPool := st2.sponsorshipPool - relayerFee },
                    rec, rec.transfers ++ [(relayer, relayerFee)])
        else .ok (st2, rec, rec.transfers)

/-- StreamManager.depositTreasury: route owner funds into the YieldVault. -/
def depositTreasury (st : ManagerState) (amount now : Nat) : Except Err ManagerState :=
  if amount = 0 then .error .ZeroAmount
  else
    match vaultDeposit st.vault amount now with
    | .error e => .error e
    | .ok v1 => .ok { st with vault := v1 }

/-- StreamManager.depositSponsorshipPool. -/
def depositSponsorshipPool (st : ManagerState) (amount : Nat) : Except Err ManagerState :=
  if amount = 0 then .error .ZeroAmount
  else .ok { st with sponsorshipPool := st.sponsorshipPool + amount }

/-- StreamManager.accruedSalary (view). -/
def accruedSalary (st : ManagerState) (streamId now : Nat) : Nat :=
  let s := st.streams streamId
  s.ratePerSecond * (now - s.lastCheckpoint)

/-- StreamManager.netWithdrawable (view). -/
def netWithdrawable (st : ManagerState) (streamId now : Nat) : Nat :=
  let s := st.streams streamId
  let accrued := s.ratePerSecond * (now - s.lastCheckpoint)
  let tax := accrued * s.taxBps / 10000
  let net := accrued - tax
  if 0 < s.bonusAmount ∧ s.bonusReleaseTime ≤ now ∧ s.bonusClaimed = false
  then net + s.bonusAmount else net

/-- StreamManager.treasuryBalance (view): delegates to the vault. -/
def treasuryBalance (st : ManagerState) (now : Nat) : Nat :=
  currentBalance st.vault now

/-- The externally callable mutating operations of the system. -/
inductive Op where
  | createStream (employee : Addr) (ratePerSecond taxBps : Nat)
  | batchCreateStreams (inputs : List StreamInput)
  | scheduleBonus (streamId amount releaseTime : Nat)
  | pauseStream (streamId : Nat)
  | resumeStream (streamId : Nat)
  | cancelStream (streamId : Nat)
  | withdraw (streamId : Nat)
  | withdrawSigned (streamId nonce deadline relayerFee : Nat) (sig : Sig) (relayer : Addr)
  | depositTreasury (amount : Nat)
  | depositSponsorshipPool (amount : Nat)
  | setYieldRate (bps : Nat)

/-- One transaction against the system at wall-clock time `now`; a success
carries the new state and the outgoing transfers the call performed. -/
def step (st : ManagerState) (op : Op) (now : Nat) :
    Except Err (ManagerState × List (Addr × Nat)) :=
  match op with
  | .createStream e r t => (createStream st e r t now).map (fun st1 => (st1, []))
  | .batchCreateStreams inputs => (batchCreateStreams st inputs now).map (fun st1 => (st1, []))
  | .scheduleBonus i a r => (scheduleBonus st i a r now).map (fun st1 => (st1, []))
  | .pauseStream i => (pauseStream st i now).map (fun st1 => (st1, []))
  | .resumeStream i => (resumeStream st i now).map (fun st1 => (st1, []))
  | .cancelStream i => (cancelStream st i now).map (fun st1 => (st1, []))
  | .withdraw i => (executeWithdraw st i now).map (fun p => (p.1, p.2.transfers))
  | .withdrawSigned i n d f sig rel =>
    (withdrawSigned st i n d f sig rel now).map (fun p => (p.1, p.2.2))
  | .depositTreasury a => (depositTreasury st a now).map (fun st1 => (st1, []))
  | .depositSponsorshipPool a => (depositSponsorshipPool st a).map (fun st1 => (st1, []))
  | .setYieldRate b => (setYieldRate st.vault b now).map (fun v1 => ({ st with vault := v1 }, []))

/-- Reachability: st' arises from st by a sequence of successful operations. -/
inductive Reaches : ManagerState → ManagerState → Prop where
  | refl (st : ManagerState) : Reaches st st
  | tail {st st1 st2 : ManagerState} (op : Op) (now : Nat) (tr : List (Addr × Nat)) :
      Reaches st st1 → step st1 op now = .ok (st2, tr) → Reaches st st2

/-! ## Helper lemmas -/

/-- Full characterisation of a successful core withdrawal: the stream was
active and unpaused, the record's amounts follow the source's formulas, the
outgoing transfers are the tax to the tax vault (when positive) followed by
the net to the employee, and the call leaves every other piece of manager
state untouched. -/
theorem executeWithdraw_ok_shape {st : ManagerState} {streamId now : Nat}
    {st' : ManagerState} {rec : WRec}
    (h : executeWithdraw st streamId now = .ok (st', rec)) :
    (st.streams streamId).active = true ∧
    (st.streams streamId).paused = false ∧
    rec.gross = accruedSalary st streamId now +
      (if 0 < (st.streams streamId).bonusAmount ∧
          (st.streams streamId).bonusReleaseTime ≤ now ∧
          (st.streams streamId).bonusClaimed = false
       then (st.streams streamId).bonusAmount else 0) ∧
    rec.tax = accruedSalary st streamId now * (st.streams streamId).taxBps / 10000 ∧
    rec.net = rec.gross - rec.tax ∧
    rec.vaultPulled = rec.net + rec.tax ∧
    rec.transfers = (if 0 < rec.tax then [(st.taxVault, rec.tax)] else []) ++
      [((st.streams streamId).employee, rec.net)] ∧
    st'.nonces = st.nonces ∧
    st'.nextStreamId = st.nextStreamId ∧
    st'.sponsorshipPool = st.sponsorshipPool ∧
    st'.taxVault = st.taxVault ∧
    st'.self = st.self ∧
    (∀ j, j ≠ streamId → st'.streams j = st.streams j) ∧
    (st'.streams streamId).lastCheckpoint = now ∧
    (st'.streams streamId).employee = (st.streams streamId).employee ∧
    (st'.streams streamId).active = true := by
  simp only [executeWithdraw, accruedSalary] at h ⊢
  split at h
  · exact Except.noConfusion h
  split at h
  · exact Except.noConfusion h
  split at h
  all_goals
    split at h
  any_goals exact Except.noConfusion h
  all_goals
    split at h
  any_goals exact Except.noConfusion h
  all_goals
    injection h with h1
  all_goals
    injection h1 with hst hrec
  all_goals
    subst hst
  all_goals
    subst hrec
  all_goals
    simp_all [setStream]

/-- Shape of a successful withdrawSigned: the deadline had not passed, the
supplied nonce equalled the stored nonce, the recovered signer matched, the
core withdrawal ran on the state whose nonce was already bumped to
nonce + 1, and the relayer fee (when positive) was debited from the
sponsorship pool and paid to the relayer on top of the core transfers. -/
theorem withdrawSigned_ok_shape {st : ManagerState}
    {streamId nonce deadline relayerFee : Nat} {sig : Sig} {relayer : Addr} {now : Nat}
    {st' : ManagerState} {rec : WRec} {tr : List (Addr × Nat)}
    (h : withdrawSigned st streamId nonce deadline relayerFee sig relayer now =
      .ok (st', rec, tr)) :
    now ≤ deadline ∧
    nonce = st.nonces (st.streams streamId).employee ∧
    recover streamId nonce deadline sig = (st.streams streamId).employee ∧
    ∃ st2, executeWithdraw
        (setNonce st (st.streams streamId).employee (nonce + 1)) streamId now =
        .ok (st2, rec) ∧
      ((0 < relayerFee ∧ relayerFee ≤ st2.sponsorshipPool ∧
          st' = { st2 with sponsorshipPool := st2.sponsorshipPool - relayerFee } ∧
          tr = rec.transfers ++ [(relayer, relayerFee)]) ∨
       (relayerFee = 0 ∧ st' = st2 ∧ tr = rec.transfers)) := by
  simp only [withdrawSigned] at h
  split at h
  · exact Except.noConfusion h
  next hdl =>
  split at h
  · exact Except.noConfusion h
  next hnc =>
  split at h
  · exact Except.noConfusion h
  next hsg =>
  refine ⟨not_lt.mp hdl, not_ne_iff.mp hnc, not_ne_iff.mp hsg, ?_⟩
  cases hE : executeWithdraw
      (setNonce st (st.streams streamId).employee (nonce + 1)) streamId now with
  | error e2 => rw [hE] at h; exact Except.noConfusion h
  | ok p =>
    obtain ⟨st2, rec2⟩ := p
    rw [hE] at h
    dsimp only at h
    split at h
    · next hf =>
      split at h
      · exact Except.noConfusion h
      next hpool =>
      injection h with h1
      injection h1 with h2 h3
      injection h3 with h4 h5
      subst h4
      exact ⟨st2, rfl, Or.inl ⟨hf, not_lt.mp hpool, h2.symm, h5.symm⟩⟩
    · next hf =>
      injection h with h1
      injection h1 with h2 h3
      injection h3 with h4 h5
      subst h4
      exact ⟨st2, rfl, Or.inr ⟨Nat.eq_zero_of_not_pos hf, h2.symm, h5.symm⟩⟩

/-- The withheld tax never exceeds the accrued salary when the stream's tax
rate is at most 100 % (10000 bps). -/
theorem tax_le_accrued (accrued taxBps : Nat) (h : taxBps ≤ MAX_TAX_BPS) :
    accrued * taxBps / 10000 ≤ accrued := by
  calc accrued * taxBps / 10000
      ≤ accrued * 10000 / 10000 :=
        Nat.div_le_div_right (Nat.mul_le_mul_left accrued h)
    _ = accrued := Nat.mul_div_cancel accrued (by norm_num)

/-! ## Claim theorems -/

/-- Claim C1: on every successful withdrawal (the direct path and the signed
path both run this core), with accrued salary A = ratePerSecond × (now −
lastCheckpoint) and claimable bonus B, the settlement computes gross = A + B,
tax = floor(A × taxBps / 10000) on A only (the bonus is never taxed),
net = gross − tax, the transfers performed are exactly the tax to the tax
collector and the net to the employee, and net + tax = gross. -/
theorem withdraw_splits_tax_on_salary_only {st : ManagerState} {streamId now : Nat}
    {st' : ManagerState} {rec : WRec}
    (htax : (st.streams streamId).taxBps ≤ MAX_TAX_BPS)
    (h : executeWithdraw st streamId now = .ok (st', rec)) :
    rec.gross = accruedSalary st streamId now +
      (if 0 < (st.streams streamId).bonusAmount ∧
          (st.streams streamId).bonusReleaseTime ≤ now ∧
          (st.streams streamId).bonusClaimed = false
       then (st.streams streamId).bonusAmount else 0) ∧
    rec.tax = accruedSalary st streamId now * (st.streams streamId).taxBps / 10000 ∧
    rec.net = rec.gross - rec.tax ∧
    rec.net + rec.tax = rec.gross ∧
    rec.transfers = (if 0 < rec.tax then [(st.taxVault, rec.tax)] else []) ++
      [((st.streams streamId).employee, rec.net)] ∧
    withdraw st streamId now = executeWithdraw st streamId now ∧
    (∀ (nonce deadline relayerFee : Nat) (sig : Sig) (relayer : Addr)
       (st3 : ManagerState) (rec3 : WRec) (tr : List (Addr × Nat)),
       withdrawSigned st streamId nonce deadline relayerFee sig relayer now =
         .ok (st3, rec3, tr) →
       ∃ st4, executeWithdraw
         (setNonce st (st.streams streamId).employee (nonce + 1)) streamId now =
         .ok (st4, rec3)) := by
  obtain ⟨-, -, hg, ht, hn, -, htr, -⟩ := executeWithdraw_ok_shape h
  have hta : rec.tax ≤ accruedSalary st streamId now := by
    rw [ht]; exact tax_le_accrued _ _ htax
  have htg : rec.tax ≤ rec.gross := le_trans hta (by rw [hg]; exact Nat.le_add_right _ _)
  refine ⟨hg, ht, hn, by rw [hn]; exact Nat.sub_add_cancel htg, htr, rfl, ?_⟩
  intro nonce deadline relayerFee sig relayer st3 rec3 tr hw
  obtain ⟨-, -, -, st4, hE, -⟩ := withdrawSigned_ok_shape hw
  exact ⟨st4, hE⟩

/-! ## Concrete fixtures used by the witnesses -/

/-- A manager state holding one stream at id 0, a well-funded vault with the
yield simulation switched off, a funded sponsorship pool, tax vault at
address 2 and the manager itself at address 1. -/
def mkState (s : Stream) : ManagerState :=
  ⟨1, 2, ⟨10 ^ 24, 0, 0, 0⟩, 1, 10 ^ 21,
   fun j => if j = 0 then s else default, fun _ => 0⟩

/-- Fixture for the tax-split witness: rate 10/s, checkpoint 0, tax 500 bps,
bonus 500 releasable at t = 50, queried at t = 100. -/
def exC1State : ManagerState := mkState ⟨3, 10, 0, 500, true, false, 500, 50, false⟩

/-- The result of the fixture withdrawal. -/
def exC1Out : ManagerState × WRec := (executeWithdraw exC1State 0 100).toOption.getD default

/-- Witness for claim C1 at the concrete fixture: gross 1500 = 1000 accrued +
500 bonus, tax 50 = 5 % of the accrued 1000 only, net 1450, transfers tax to
the tax vault (address 2) and net to the employee (address 3). -/
theorem withdraw_splits_tax_on_salary_only_witness :
    exC1Out.2.gross = 1500 ∧ exC1Out.2.tax = 50 ∧ exC1Out.2.net = 1450 ∧
    exC1Out.2.net + exC1Out.2.tax = exC1Out.2.gross ∧
    exC1Out.2.transfers = [(2, 50), (3, 1450)] := by
  have h : executeWithdraw exC1State 0 100 = .ok (exC1Out.1, exC1Out.2) := rfl
  have hc := withdraw_splits_tax_on_salary_only (by decide) h
  exact ⟨by decide, by decide, by decide, hc.2.2.2.1, by decide⟩

/-- Fixture for the pause/resume claims: rate 1/s, no tax, no bonus,
checkpoint 0. -/
def exC2State : ManagerState := mkState ⟨3, 1, 0, 0, true, false, 0, 0, false⟩

/-- Claim C2: the code drops pre-pause accrual.  The stream accrues 100 over
[0, 100]; pauseStream at t = 100 moves the checkpoint to 100 without paying
out or recording the accrued 100 anywhere (despite the source comment
"Settle accrued amount up to now so nothing is lost"); after resuming at
t = 200 a withdrawal at t = 300 collects only the 100 accrued since the
resume — the pre-pause 100 is permanently uncollectible. -/
theorem pause_then_resume_drops_prepause_accrual :
    accruedSalary exC2State 0 100 = 100 ∧
    ((pauseStream exC2State 0 100).bind (fun st1 =>
      (resumeStream st1 0 200).bind (fun st2 =>
        executeWithdraw st2 0 300))).map (fun p => (p.2.gross, p.2.net, p.2.transfers))
      = .ok (100, 100, [(3, 100)]) :=
  ⟨rfl, rfl⟩

/-- Claim C3: pausing settles the checkpoint to the pause time and flips the
paused flag; a withdrawal on a paused (active) stream fails; resuming resets
the checkpoint to the resume time, so the paused interval contributes zero
accrual and, absent intervening checkpoint-advancing operations, the accrued
salary at any t after the resume at t2 is exactly ratePerSecond × (t − t2). -/
theorem paused_interval_never_accrues :
    (∀ st streamId t1 st1, pauseStream st streamId t1 = .ok st1 →
       (st1.streams streamId).paused = true ∧
       (st1.streams streamId).lastCheckpoint = t1) ∧
    (∀ st streamId now, (st.streams streamId).active = true →
       (st.streams streamId).paused = true →
       executeWithdraw st streamId now = .error (.AlreadyPaused streamId)) ∧
    (∀ st streamId t2 st2, resumeStream st streamId t2 = .ok st2 →
       (st2.streams streamId).paused = false ∧
       (st2.streams streamId).lastCheckpoint = t2 ∧
       (∀ t, accruedSalary st2 streamId t =
          (st.streams streamId).ratePerSecond * (t - t2))) := by
  refine ⟨?_, ?_, ?_⟩
  · intro st streamId t1 st1 h
    simp only [pauseStream] at h
    split at h
    · exact Except.noConfusion h
    split at h
    · exact Except.noConfusion h
    injection h with h1
    subst h1
    simp [setStream]
  · intro st streamId now ha hp
    simp [executeWithdraw, ha, hp]
  · intro st streamId t2 st2 h
    simp only [resumeStream] at h
    split at h
    · exact Except.noConfusion h
    split at h
    · exact Except.noConfusion h
    injection h with h1
    subst h1
    simp [setStream, accruedSalary]

/-- Fixtures for the pause/resume witness: pause at 100, resume at 200. -/
def exC3State : ManagerState := mkState ⟨3, 7, 0, 0, true, false, 0, 0, false⟩

/-- The fixture after pausing at t = 100. -/
def exC3St1 : ManagerState := (pauseStream exC3State 0 100).toOption.getD default

/-- The fixture after resuming at t = 200. -/
def exC3St2 : ManagerState := (resumeStream exC3St1 0 200).toOption.getD default

/-- Witness for claim C3: after pause at 100 the stream is paused and a
withdrawal at 150 fails AlreadyPaused; after resume at 200 the checkpoint is
200 and the accrual at 230 is 7 × 30. -/
theorem paused_interval_never_accrues_witness :
    (exC3St1.streams 0).paused = true ∧
    executeWithdraw exC3St1 0 150 = .error (.AlreadyPaused 0) ∧
    (exC3St2.streams 0).lastCheckpoint = 200 ∧
    accruedSalary exC3St2 0 230 = 7 * 30 := by
  have h1 : pauseStream exC3State 0 100 = .ok exC3St1 := rfl
  have h2 : resumeStream exC3St1 0 200 = .ok exC3St2 := rfl
  refine ⟨(paused_interval_never_accrues.1 exC3State 0 100 exC3St1 h1).1,
          paused_interval_never_accrues.2.1 exC3St1 0 150 (by decide) (by decide),
          (paused_interval_never_accrues.2.2 exC3St1 0 200 exC3St2 h2).2.1, ?_⟩
  rw [(paused_interval_never_accrues.2.2 exC3St1 0 200 exC3St2 h2).2.2 230]
  decide

/-- Claim C10: the views accruedSalary and netWithdrawable never consult the
active or paused flags — they return the same value on a paused or cancelled
stream as on a live one, accruedSalary is exactly ratePerSecond × (now −
lastCheckpoint) and keeps growing with elapsed time, even though in those
states the core withdrawal always fails. -/
theorem views_ignore_lifecycle_flags :
    (∀ st streamId now, accruedSalary st streamId now =
       (st.streams streamId).ratePerSecond *
         (now - (st.streams streamId).lastCheckpoint)) ∧
    (∀ st streamId now a p,
       accruedSalary (setStream st streamId
         { st.streams streamId with active := a, paused := p }) streamId now =
       accruedSalary st streamId now) ∧
    (∀ st streamId now a p,
       netWithdrawable (setStream st streamId
         { st.streams streamId with active := a, paused := p }) streamId now =
       netWithdrawable st streamId now) ∧
    (∀ st streamId t t', (st.streams streamId).lastCheckpoint ≤ t → t ≤ t' →
       accruedSalary st streamId t ≤ accruedSalary st streamId t') ∧
    (∀ st streamId now, ((st.streams streamId).active = false ∨
        (st.streams streamId).paused = true) →
       (executeWithdraw st streamId now).isOk = false) := by
  refine ⟨fun st streamId now => rfl, ?_, ?_, ?_, ?_⟩
  · intro st streamId now a p
    simp [accruedSalary, setStream]
  · intro st streamId now a p
    simp [netWithdrawable, setStream]
  · intro st streamId t t' h1 h2
    exact Nat.mul_le_mul_left _ (Nat.sub_le_sub_right h2 _)
  · intro st streamId now h
    cases h with
    | inl ha =>
      simp only [executeWithdraw, ha]
      rfl
    | inr hp =>
      simp only [executeWithdraw, hp]
      split
      · rfl
      · rfl

/-- Fixture for the view-functions witness: a cancelled, paused stream of
rate 7 with checkpoint 50. -/
def exC10State : ManagerState := mkState ⟨3, 7, 50, 0, false, true, 0, 0, false⟩

/-- Witness for claim C10: on the cancelled-and-paused fixture the view still
reports 7 × 100 at t = 150, it grows between t = 100 and t = 150, and the
withdrawal fails. -/
theorem views_ignore_lifecycle_flags_witness :
    accruedSalary exC10State 0 150 = 700 ∧
    accruedSalary exC10State 0 100 ≤ accruedSalary exC10State 0 150 ∧
    (executeWithdraw exC10State 0 150).isOk = false := by
  refine ⟨?_, ?_, ?_⟩
  · rw [views_ignore_lifecycle_flags.1 exC10State 0 150]
    decide
  · exact views_ignore_lifecycle_flags.2.2.2.1 exC10State 0 100 150
      (by decide) (by decide)
  · exact views_ignore_lifecycle_flags.2.2.2.2 exC10State 0 150 (Or.inl (by decide))

/-- Claim C9: the vault's currentBalance view is a pure function of the
state (it mutates nothing) and returns exactly totalPrincipal +
accumulatedYield + pendingYield, where pendingYield is the floor of
principal × rateBps × elapsed / (10000 × secondsPerYear) — in particular it
is zero whenever the principal, the rate or the elapsed time is zero, with
no compounding between accrual events. -/
theorem currentBalance_formula (v : VaultState) (now : Nat) :
    currentBalance v now =
      v.totalPrincipal + v.accumulatedYield +
        v.totalPrincipal * v.yieldRateBps * (now - v.lastUpdate) /
          (10000 * secondsPerYear) := by
  unfold currentBalance pendingYield
  split
  · next h => rcases h with h | h <;> simp [h]
  · dsimp only
    split
    · next h => simp [h]
    · rfl

/-- Claim C8: the vault's withdraw first accrues pending yield (passing to
the post-accrual state simulateYield v now), then fails InsufficientBalance
whenever the amount exceeds totalPrincipal + accumulatedYield, and otherwise
deducts the amount from accumulatedYield first — only the remainder comes
out of totalPrincipal — and transfers exactly the amount to the recipient. -/
theorem vaultWithdraw_consumes_yield_first (v : VaultState) (amount : Nat)
    (dst : Addr) (now : Nat) (hdst : dst ≠ 0) (hamt : 0 < amount) :
    ((simulateYield v now).totalPrincipal + (simulateYield v now).accumulatedYield < amount →
       vaultWithdraw v amount dst now =
         .error (.InsufficientBalance amount
           ((simulateYield v now).totalPrincipal +
            (simulateYield v now).accumulatedYield))) ∧
    (amount ≤ (simulateYield v now).totalPrincipal + (simulateYield v now).accumulatedYield →
       (amount ≤ (simulateYield v now).accumulatedYield →
          vaultWithdraw v amount dst now = .ok
            ({ simulateYield v now with
                 accumulatedYield := (simulateYield v now).accumulatedYield - amount },
             dst, amount)) ∧
       ((simulateYield v now).accumulatedYield < amount →
          vaultWithdraw v amount dst now = .ok
            ({ simulateYield v now with
                 accumulatedYield := 0,
                 totalPrincipal := (simulateYield v now).totalPrincipal -
                   (amount - (simulateYield v now).accumulatedYield) },
             dst, amount))) := by
  have h0 : ¬ amount = 0 := Nat.pos_iff_ne_zero.mp hamt
  constructor
  · intro hlt
    simp only [vaultWithdraw, if_neg h0, if_neg hdst, if_pos hlt]
  · intro hle
    have hnlt : ¬ ((simulateYield v now).totalPrincipal +
        (simulateYield v now).accumulatedYield < amount) := not_lt.mpr hle
    constructor
    · intro hy
      simp only [vaultWithdraw, if_neg h0, if_neg hdst, if_neg hnlt, if_pos hy]
    · intro hy
      have hny : ¬ amount ≤ (simulateYield v now).accumulatedYield := not_le.mpr hy
      simp only [vaultWithdraw, if_neg h0, if_neg hdst, if_neg hnlt, if_neg hny]

/-- Fixture for the vault witness: 100000 principal at 500 bps, viewed one
year (31536000 s) later, so the pending yield is exactly 5000. -/
def exVault : VaultState := ⟨100000, 500, 0, 0⟩

/-- Witness for claim C8: at the fixture, withdrawing 104000 consumes the
5000 accrued yield first and 99000 of principal; withdrawing 4000 touches
only yield; withdrawing 106000 fails InsufficientBalance. -/
theorem vaultWithdraw_consumes_yield_first_witness :
    vaultWithdraw exVault 104000 7 31536000 =
      .ok (⟨1000, 500, 31536000, 0⟩, 7, 104000) ∧
    vaultWithdraw exVault 4000 7 31536000 =
      .ok (⟨100000, 500, 31536000, 1000⟩, 7, 4000) ∧
    vaultWithdraw exVault 106000 7 31536000 =
      .error (.InsufficientBalance 106000 105000) := by
  refine ⟨?_, ?_, ?_⟩
  · have h := ((vaultWithdraw_consumes_yield_first exVault 104000 7 31536000
      (by decide) (by decide)).2 (by decide)).2 (by decide)
    rw [h]
    rfl
  · have h := ((vaultWithdraw_consumes_yield_first exVault 4000 7 31536000
      (by decide) (by decide)).2 (by decide)).1 (by decide)
    rw [h]
    rfl
  · have h := (vaultWithdraw_consumes_yield_first exVault 106000 7 31536000
      (by decide) (by decide)).1 (by decide)
    rw [h]
    rfl

/-- The batch loop succeeds exactly when every entry passes validation. -/
theorem batchLoop_ok_iff (inputs : List StreamInput) :
    ∀ st checkpoint, (batchLoop st inputs checkpoint).isOk = true ↔
      ∀ inp ∈ inputs,
        validateStreamParams inp.employee inp.ratePerSecond inp.taxBps = .ok () := by
  induction inputs with
  | nil => intro st checkpoint; simp [batchLoop, Except.isOk, Except.toBool]
  | cons inp rest ih =>
    intro st checkpoint
    cases hv : validateStreamParams inp.employee inp.ratePerSecond inp.taxBps with
    | error e =>
      simp only [batchLoop, hv]
      constructor
      · intro h
        simp [Except.isOk, Except.toBool] at h
      · intro h
        have h2 := h inp (List.mem_cons_self inp rest)
        rw [hv] at h2
        exact Except.noConfusion h2
    | ok u =>
      cases u
      simp only [batchLoop, hv]
      rw [ih]
      constructor
      · intro h inp2 hm
        rcases List.mem_cons.mp hm with h2 | h2
        · rw [h2]; exact hv
        · exact h inp2 h2
      · intro h inp2 hm
        exact h inp2 (List.mem_cons_of_mem _ hm)

/-- A successful batch loop appends exactly one fresh stream per input — all
with the one shared checkpoint — advances nextStreamId by the batch length,
and leaves earlier ids and all other manager state untouched. -/
theorem batchLoop_ok_shape (inputs : List StreamInput) :
    ∀ st st' checkpoint, batchLoop st inputs checkpoint = .ok st' →
      st'.nextStreamId = st.nextStreamId + inputs.length ∧
      (∀ j, j < st.nextStreamId → st'.streams j = st.streams j) ∧
      (∀ k (hk : k < inputs.length),
         st'.streams (st.nextStreamId + k) =
           ⟨(inputs.get ⟨k, hk⟩).employee, (inputs.get ⟨k, hk⟩).ratePerSecond, checkpoint,
            (inputs.get ⟨k, hk⟩).taxBps, true, false, 0, 0, false⟩) ∧
      st'.nonces = st.nonces ∧ st'.vault = st.vault ∧
      st'.sponsorshipPool = st.sponsorshipPool ∧
      st'.taxVault = st.taxVault ∧ st'.self = st.self := by
  induction inputs with
  | nil =>
    intro st st' checkpoint h
    simp only [batchLoop] at h
    injection h with h1
    subst h1
    exact ⟨rfl, fun j _ => rfl, fun k hk => absurd hk (Nat.not_lt_zero k),
           rfl, rfl, rfl, rfl, rfl⟩
  | cons inp rest ih =>
    intro st st' checkpoint h
    simp only [batchLoop] at h
    cases hv : validateStreamParams inp.employee inp.ratePerSecond inp.taxBps with
    | error e => rw [hv] at h; exact Except.noConfusion h
    | ok u =>
      cases u
      rw [hv] at h
      obtain ⟨hn, hpre, hnew, hnon, hva, hsp, htv, hse⟩ := ih _ st' checkpoint h
      refine ⟨?_, ?_, ?_, hnon, hva, hsp, htv, hse⟩
      · rw [hn, List.length_cons]
        dsimp only
        omega
      · intro j hj
        rw [hpre j (Nat.lt_succ_of_lt hj)]
        simp [setStream, Nat.ne_of_lt hj]
      · intro k hk
        cases k with
        | zero =>
          have h0 : st.nextStreamId < st.nextStreamId + 1 := Nat.lt_succ_self _
          rw [Nat.add_zero, hpre st.nextStreamId h0]
          simp [setStream]
        | succ k2 =>
          have hk2 : k2 < rest.length := Nat.lt_of_succ_lt_succ hk
          have := hnew k2 hk2
          rw [show st.nextStreamId + (k2 + 1) = st.nextStreamId + 1 + k2 by omega]
          rw [this]
          rfl

/-- Claim C7: batchCreateStreams rejects a list of length 0 or above
MAX_BATCH = 200 with InvalidBatchSize; within bounds it succeeds exactly
when every entry passes the same validation as createStream (non-zero
employee, 0 < rate ≤ MAX_RATE, taxBps ≤ 10000) — any invalid entry makes
the whole call fail, so no stream at all is created — and on success it
creates one stream per entry, all sharing the single checkpoint `now`. -/
theorem batchCreateStreams_spec :
    (∀ st inputs now, inputs.length = 0 ∨ MAX_BATCH < inputs.length →
       batchCreateStreams st inputs now = .error .InvalidBatchSize) ∧
    (∀ st inputs now, 1 ≤ inputs.length → inputs.length ≤ MAX_BATCH →
       ((batchCreateStreams st inputs now).isOk = true ↔
         ∀ inp ∈ inputs,
           validateStreamParams inp.employee inp.ratePerSecond inp.taxBps = .ok ())) ∧
    (∀ e r t, validateStreamParams e r t = .ok () ↔
       (e ≠ 0 ∧ 0 < r ∧ r ≤ MAX_RATE ∧ t ≤ MAX_TAX_BPS)) ∧
    (∀ st inputs now st', batchCreateStreams st inputs now = .ok st' →
       st'.nextStreamId = st.nextStreamId + inputs.length ∧
       ∀ k (hk : k < inputs.length),
         st'.streams (st.nextStreamId + k) =
           ⟨(inputs.get ⟨k, hk⟩).employee, (inputs.get ⟨k, hk⟩).ratePerSecond, now,
            (inputs.get ⟨k, hk⟩).taxBps, true, false, 0, 0, false⟩) := by
  refine ⟨?_, ?_, ?_, ?_⟩
  · intro st inputs now h
    simp only [batchCreateStreams, if_pos h]
  · intro st inputs now h1 h2
    have hng : ¬ (inputs.length = 0 ∨ MAX_BATCH < inputs.length) := by
      push_neg
      exact ⟨Nat.pos_iff_ne_zero.mp h1, h2⟩
    simp only [batchCreateStreams, if_neg hng]
    exact batchLoop_ok_iff inputs st now
  · intro e r t
    constructor
    · intro h
      unfold validateStreamParams at h
      split at h
      · exact Except.noConfusion h
      split at h
      · exact Except.noConfusion h
      split at h
      · exact Except.noConfusion h
      next h1 h2 h3 =>
      push_neg at h2
      exact ⟨h1, Nat.pos_iff_ne_zero.mpr h2.1, h2.2, not_lt.mp h3⟩
    · intro ⟨h1, h2, h3, h4⟩
      unfold validateStreamParams
      rw [if_neg h1, if_neg (by push_neg; exact ⟨Nat.pos_iff_ne_zero.mp h2, h3⟩),
          if_neg (not_lt.mpr h4)]
  · intro st inputs now st' h
    simp only [batchCreateStreams] at h
    split at h
    · exact Except.noConfusion h
    obtain ⟨hn, -, hnew, -⟩ := batchLoop_ok_shape inputs st st' now h
    exact ⟨hn, hnew⟩

/-- Fixture for the batch witness: two valid entries. -/
def exBatchInputs : List StreamInput := [⟨3, 5, 100⟩, ⟨4, 7, 200⟩]

/-- The state after the fixture batch. -/
def exBatchOut : ManagerState :=
  (batchCreateStreams (mkState default) exBatchInputs 42).toOption.getD default

/-- Witness for claim C7: the two-entry batch succeeds and both created
streams carry the shared checkpoint 42; the empty batch and a 201-entry
batch fail InvalidBatchSize; a batch with a zero employee address is not
created. -/
theorem batchCreateStreams_spec_witness :
    batchCreateStreams (mkState default) ([] : List StreamInput) 42 =
      .error .InvalidBatchSize ∧
    batchCreateStreams (mkState default) (List.replicate 201 (⟨3, 5, 100⟩ : StreamInput)) 42 =
      .error .InvalidBatchSize ∧
    ((batchCreateStreams (mkState default) [⟨0, 5, 100⟩, ⟨4, 7, 200⟩] 42).isOk = true ↔
      ∀ inp ∈ ([⟨0, 5, 100⟩, ⟨4, 7, 200⟩] : List StreamInput),
        validateStreamParams inp.employee inp.ratePerSecond inp.taxBps = .ok ()) ∧
    exBatchOut.nextStreamId = 3 ∧
    (exBatchOut.streams 1).lastCheckpoint = 42 ∧
    (exBatchOut.streams 2).lastCheckpoint = 42 := by
  have hb : batchCreateStreams (mkState default) exBatchInputs 42 = .ok exBatchOut := rfl
  have hshape := batchCreateStreams_spec.2.2.2 (mkState default) exBatchInputs 42 exBatchOut hb
  refine ⟨batchCreateStreams_spec.1 (mkState default) [] 42 (Or.inl rfl),
          batchCreateStreams_spec.1 (mkState default) _ 42
            (Or.inr (by rw [List.length_replicate]; decide)),
          batchCreateStreams_spec.2.1 (mkState default) _ 42 (by decide) (by decide),
          hshape.1, ?_, ?_⟩
  · have h1 := hshape.2 0 (by decide)
    rw [show (1 : Nat) = (mkState default).nextStreamId + 0 from rfl, h1]
  · have h2 := hshape.2 1 (by decide)
    rw [show (2 : Nat) = (mkState default).nextStreamId + 1 from rfl, h2]

/-- A Bool that is not false is true. -/
theorem bool_true_of_not_false {b : Bool} (h : ¬ b = false) : b = true := by
  cases b
  · exact absurd rfl h
  · rfl

/-- Shape of a successful createStream: validation passed, the fresh stream
is written at the old nextStreamId, the counter advances by one, and nothing
else changes. -/
theorem createStream_ok_shape {st : ManagerState} {e : Addr} {r t now : Nat}
    {st' : ManagerState} (h : createStream st e r t now = .ok st') :
    st' = { setStream st st.nextStreamId ⟨e, r, now, t, true, false, 0, 0, false⟩ with
            nextStreamId := st.nextStreamId + 1 } := by
  simp only [createStream] at h
  split at h
  · exact Except.noConfusion h
  · injection h with h1
    exact h1.symm

/-- Shape of a successful scheduleBonus: the stream was active and only its
bonus fields change. -/
theorem scheduleBonus_ok_shape {st : ManagerState} {streamId amount releaseTime now : Nat}
    {st' : ManagerState} (h : scheduleBonus st streamId amount releaseTime now = .ok st') :
    (st.streams streamId).active = true ∧
    st' = setStream st streamId
      { st.streams streamId with
          bonusAmount := amount, bonusReleaseTime := releaseTime, bonusClaimed := false } := by
  simp only [scheduleBonus] at h
  split at h
  · exact Except.noConfusion h
  split at h
  · exact Except.noConfusion h
  split at h
  · exact Except.noConfusion h
  next ha h2 h3 =>
  injection h with h1
  exact ⟨bool_true_of_not_false ha, h1.symm⟩

/-- Shape of a successful pauseStream. -/
theorem pauseStream_ok_shape {st : ManagerState} {streamId now : Nat}
    {st' : ManagerState} (h : pauseStream st streamId now = .ok st') :
    (st.streams streamId).active = true ∧
    st' = setStream st streamId
      { st.streams streamId with lastCheckpoint := now, paused := true } := by
  simp only [pauseStream] at h
  split at h
  · exact Except.noConfusion h
  split at h
  · exact Except.noConfusion h
  next ha h2 =>
  injection h with h1
  exact ⟨bool_true_of_not_false ha, h1.symm⟩

/-- Shape of a successful resumeStream. -/
theorem resumeStream_ok_shape {st : ManagerState} {streamId now : Nat}
    {st' : ManagerState} (h : resumeStream st streamId now = .ok st') :
    (st.streams streamId).active = true ∧
    st' = setStream st streamId
      { st.streams streamId with lastCheckpoint := now, paused := false } := by
  simp only [resumeStream] at h
  split at h
  · exact Except.noConfusion h
  split at h
  · exact Except.noConfusion h
  next ha h2 =>
  injection h with h1
  exact ⟨bool_true_of_not_false ha, h1.symm⟩

/-- Shape of a successful cancelStream: the stream was active; the call only
settles the checkpoint to now and clears the active flag — it moves no
funds and touches nothing else. -/
theorem cancelStream_ok_shape {st : ManagerState} {streamId now : Nat}
    {st' : ManagerState} (h : cancelStream st streamId now = .ok st') :
    (st.streams streamId).active = true ∧
    st' = setStream st streamId
      { st.streams streamId with lastCheckpoint := now, active := false } := by
  simp only [cancelStream] at h
  split at h
  · exact Except.noConfusion h
  next ha =>
  injection h with h1
  exact ⟨bool_true_of_not_false ha, h1.symm⟩

/-- Destructor for a successful Except.map. -/
theorem except_map_ok {E A B : Type} {f : A → B} {e : Except E A} {b : B}
    (h : e.map f = .ok b) : ∃ a, e = .ok a ∧ f a = b := by
  cases e with
  | error x => simp [Except.map] at h
  | ok a =>
    refine ⟨a, rfl, ?_⟩
    simp only [Except.map] at h
    injection h

/-- No operation ever decreases any employee's stored nonce: only
withdrawSigned touches the nonce table, and it bumps the signer's nonce from
n to n + 1. -/
theorem step_ok_nonces {st : ManagerState} {op : Op} {now : Nat}
    {st' : ManagerState} {tr : List (Addr × Nat)}
    (h : step st op now = .ok (st', tr)) (a : Addr) :
    st.nonces a ≤ st'.nonces a := by
  cases op with
  | createStream e r t =>
    obtain ⟨st1, hc, hf⟩ := except_map_ok h
    injection hf with h1 h2
    rw [← h1, createStream_ok_shape hc]
    exact Nat.le_refl _
  | batchCreateStreams inputs =>
    obtain ⟨st1, hc, hf⟩ := except_map_ok h
    injection hf with h1 h2
    rw [← h1]
    simp only [batchCreateStreams] at hc
    split at hc
    · exact Except.noConfusion hc
    · rw [(batchLoop_ok_shape inputs st st1 now hc).2.2.2.1]
  | scheduleBonus i amt r =>
    obtain ⟨st1, hc, hf⟩ := except_map_ok h
    injection hf with h1 h2
    rw [← h1, (scheduleBonus_ok_shape hc).2]
    exact Nat.le_refl _
  | pauseStream i =>
    obtain ⟨st1, hc, hf⟩ := except_map_ok h
    injection hf with h1 h2
    rw [← h1, (pauseStream_ok_shape hc).2]
    exact Nat.le_refl _
  | resumeStream i =>
    obtain ⟨st1, hc, hf⟩ := except_map_ok h
    injection hf with h1 h2
    rw [← h1, (resumeStream_ok_shape hc).2]
    exact Nat.le_refl _
  | cancelStream i =>
    obtain ⟨st1, hc, hf⟩ := except_map_ok h
    injection hf with h1 h2
    rw [← h1, (cancelStream_ok_shape hc).2]
    exact Nat.le_refl _
  | withdraw i =>
    obtain ⟨p, hc, hf⟩ := except_map_ok h
    obtain ⟨st1, rec1⟩ := p
    injection hf with h1 h2
    rw [← h1]
    obtain ⟨-, -, -, -, -, -, -, hnon, -⟩ := executeWithdraw_ok_shape hc
    exact Nat.le_of_eq (congrFun hnon.symm a)
  | withdrawSigned i n d f sig rel =>
    obtain ⟨p, hc, hf⟩ := except_map_ok h
    obtain ⟨st1, rec1, tr1⟩ := p
    injection hf with h1 h2
    rw [← h1]
    obtain ⟨hd, hn, hs, st2, hE, hbr⟩ := withdrawSigned_ok_shape hc
    obtain ⟨-, -, -, -, -, -, -, hnon2, -⟩ := executeWithdraw_ok_shape hE
    have hstn : st1.nonces = st2.nonces := by
      rcases hbr with ⟨-, -, hst, -⟩ | ⟨-, hst, -⟩ <;> rw [hst]
    have hgoal : st.nonces a ≤ st1.nonces a := by
      rw [hstn, hnon2]
      simp only [setNonce]
      by_cases hae : a = (st.streams i).employee
      · rw [if_pos hae, hae, ← hn]
        exact Nat.le_succ n
      · rw [if_neg hae]
    exact hgoal
  | depositTreasury amt =>
    obtain ⟨st1, hc, hf⟩ := except_map_ok h
    injection hf with h1 h2
    rw [← h1]
    simp only [depositTreasury] at hc
    split at hc
    · exact Except.noConfusion hc
    cases hv : vaultDeposit st.vault amt now with
    | error e2 => rw [hv] at hc; exact Except.noConfusion hc
    | ok v1 =>
      rw [hv] at hc
      injection hc with h3
      rw [← h3]
  | depositSponsorshipPool amt =>
    obtain ⟨st1, hc, hf⟩ := except_map_ok h
    injection hf with h1 h2
    rw [← h1]
    simp only [depositSponsorshipPool] at hc
    split at hc
    · exact Except.noConfusion hc
    injection hc with h3
    rw [← h3]
  | setYieldRate b =>
    obtain ⟨v1, hc, hf⟩ := except_map_ok h
    injection hf with h1 h2
    rw [← h1]

/-- A cancelled (inactive) stream with an already-allocated id stays
inactive under every successful operation: no operation flips active back to
true for an existing id, and fresh creations only ever use ids at or above
nextStreamId. -/
theorem step_preserves_inactive {st : ManagerState} {op : Op} {now : Nat}
    {st' : ManagerState} {tr : List (Addr × Nat)}
    (h : step st op now = .ok (st', tr)) {id : Nat}
    (hin : (st.streams id).active = false) (hid : id < st.nextStreamId) :
    (st'.streams id).active = false ∧ id < st'.nextStreamId := by
  cases op with
  | createStream e r t =>
    obtain ⟨st1, hc, hf⟩ := except_map_ok h
    injection hf with h1 h2
    rw [← h1, createStream_ok_shape hc]
    refine ⟨?_, Nat.lt_succ_of_lt hid⟩
    simp only [setStream]
    rw [if_neg (Nat.ne_of_lt hid)]
    exact hin
  | batchCreateStreams inputs =>
    obtain ⟨st1, hc, hf⟩ := except_map_ok h
    injection hf with h1 h2
    rw [← h1]
    simp only [batchCreateStreams] at hc
    split at hc
    · exact Except.noConfusion hc
    obtain ⟨hnext, hpre, -⟩ := batchLoop_ok_shape inputs st st1 now hc
    refine ⟨?_, ?_⟩
    · rw [hpre id hid]
      exact hin
    · rw [hnext]
      exact Nat.lt_of_lt_of_le hid (Nat.le_add_right _ _)
  | scheduleBonus i amt r =>
    obtain ⟨st1, hc, hf⟩ := except_map_ok h
    injection hf with h1 h2
    obtain ⟨hact, hst⟩ := scheduleBonus_ok_shape hc
    have hne : id ≠ i := by
      intro he
      rw [he] at hin
      rw [hin] at hact
      exact Bool.noConfusion hact
    rw [← h1, hst]
    refine ⟨?_, hid⟩
    simp only [setStream]
    rw [if_neg hne]
    exact hin
  | pauseStream i =>
    obtain ⟨st1, hc, hf⟩ := except_map_ok h
    injection hf with h1 h2
    obtain ⟨hact, hst⟩ := pauseStream_ok_shape hc
    have hne : id ≠ i := by
      intro he
      rw [he] at hin
      rw [hin] at hact
      exact Bool.noConfusion hact
    rw [← h1, hst]
    refine ⟨?_, hid⟩
    simp only [setStream]
    rw [if_neg hne]
    exact hin
  | resumeStream i =>
    obtain ⟨st1, hc, hf⟩ := except_map_ok h
    injection hf with h1 h2
    obtain ⟨hact, hst⟩ := resumeStream_ok_shape hc
    have hne : id ≠ i := by
      intro he
      rw [he] at hin
      rw [hin] at hact
      exact Bool.noConfusion hact
    rw [← h1, hst]
    refine ⟨?_, hid⟩
    simp only [setStream]
    rw [if_neg hne]
    exact hin
  | cancelStream i =>
    obtain ⟨st1, hc, hf⟩ := except_map_ok h
    injection hf with h1 h2
    obtain ⟨hact, hst⟩ := cancelStream_ok_shape hc
    rw [← h1, hst]
    refine ⟨?_, hid⟩
    by_cases hne : id = i
    · simp only [setStream]
      rw [if_pos hne]
    · simp only [setStream]
      rw [if_neg hne]
      exact hin
  | withdraw i =>
    obtain ⟨p, hc, hf⟩ := except_map_ok h
    obtain ⟨st1, rec1⟩ := p
    injection hf with h1 h2
    obtain ⟨hact, -, -, -, -, -, -, -, hnext, -, -, -, hfr, -⟩ :=
      executeWithdraw_ok_shape hc
    have hne : id ≠ i := by
      intro he
      rw [he] at hin
      rw [hin] at hact
      exact Bool.noConfusion hact
    rw [← h1]
    refine ⟨?_, ?_⟩
    · rw [hfr id hne]
      exact hin
    · have : st1.nextStreamId = st.nextStreamId := hnext
      rw [this]
      exact hid
  | withdrawSigned i n d f sig rel =>
    obtain ⟨p, hc, hf⟩ := except_map_ok h
    obtain ⟨st1, rec1, tr1⟩ := p
    injection hf with h1 h2
    obtain ⟨hd, hn, hs, st2, hE, hbr⟩ := withdrawSigned_ok_shape hc
    obtain ⟨hact, -, -, -, -, -, -, -, hnext, -, -, -, hfr, -⟩ :=
      executeWithdraw_ok_shape hE
    have hact2 : (st.streams i).active = true := hact
    have hne : id ≠ i := by
      intro he
      rw [he] at hin
      rw [hin] at hact2
      exact Bool.noConfusion hact2
    have hfr2 : st2.streams id = st.streams id := hfr id hne
    have hnext2 : st2.nextStreamId = st.nextStreamId := hnext
    have hmain : (st1.streams id).active = false ∧ id < st1.nextStreamId := by
      rcases hbr with ⟨-, -, hst, -⟩ | ⟨-, hst, -⟩ <;>
        rw [hst] <;>
        exact ⟨by rw [show st2.streams id = st.streams id from hfr2]; exact hin,
               by rw [show st2.nextStreamId = st.nextStreamId from hnext2]; exact hid⟩
    rw [← h1]
    exact hmain
  | depositTreasury amt =>
    obtain ⟨st1, hc, hf⟩ := except_map_ok h
    injection hf with h1 h2
    rw [← h1]
    simp only [depositTreasury] at hc
    split at hc
    · exact Except.noConfusion hc
    cases hv : vaultDeposit st.vault amt now with
    | error e2 => rw [hv] at hc; exact Except.noConfusion hc
    | ok v1 =>
      rw [hv] at hc
      injection hc with h3
      rw [← h3]
      exact ⟨hin, hid⟩
  | depositSponsorshipPool amt =>
    obtain ⟨st1, hc, hf⟩ := except_map_ok h
    injection hf with h1 h2
    rw [← h1]
    simp only [depositSponsorshipPool] at hc
    split at hc
    · exact Except.noConfusion hc
    injection hc with h3
    rw [← h3]
    exact ⟨hin, hid⟩
  | setYieldRate b =>
    obtain ⟨v1, hc, hf⟩ := except_map_ok h
    injection hf with h1 h2
    rw [← h1]
    exact ⟨hin, hid⟩

/-- Once a stream is inactive (with an allocated id), it is inactive in
every reachable later state. -/
theorem reaches_preserves_inactive {st st' : ManagerState}
    (h : Reaches st st') {id : Nat}
    (hin : (st.streams id).active = false) (hid : id < st.nextStreamId) :
    (st'.streams id).active = false ∧ id < st'.nextStreamId := by
  induction h with
  | refl => exact ⟨hin, hid⟩
  | tail op now tr hr hs ih =>
    obtain ⟨h1, h2⟩ := ih
    exact step_preserves_inactive hs h1 h2

/-- Claim C4: withdrawSigned accepts a request only when the supplied nonce
equals the employee's stored nonce — any other nonce fails InvalidNonce (for
an unexpired deadline) — and every accepted signed withdrawal stores
nonce + 1 before the core withdrawal runs; the nonce table is monotonically
non-decreasing across all operations, so each nonce value is accepted at
most once per employee and a signature bound to nonce N is rejected in every
state whose stored nonce has advanced past N. -/
theorem withdrawSigned_nonce_protocol :
    (∀ (st : ManagerState) (streamId nonce deadline relayerFee : Nat) (sig : Sig)
       (relayer : Addr) (now : Nat), now ≤ deadline →
       nonce ≠ st.nonces (st.streams streamId).employee →
       withdrawSigned st streamId nonce deadline relayerFee sig relayer now =
         .error .InvalidNonce) ∧
    (∀ (st : ManagerState) (streamId nonce deadline relayerFee : Nat) (sig : Sig)
       (relayer : Addr) (now : Nat) (st' : ManagerState) (rec : WRec)
       (tr : List (Addr × Nat)),
       withdrawSigned st streamId nonce deadline relayerFee sig relayer now =
         .ok (st', rec, tr) →
       nonce = st.nonces (st.streams streamId).employee ∧
       st'.nonces (st.streams streamId).employee = nonce + 1) ∧
    (∀ (st : ManagerState) (op : Op) (now : Nat) (st' : ManagerState)
       (tr : List (Addr × Nat)), step st op now = .ok (st', tr) →
       ∀ a, st.nonces a ≤ st'.nonces a) ∧
    (∀ (st : ManagerState) (streamId N deadline relayerFee : Nat) (sig : Sig)
       (relayer : Addr) (now : Nat), now ≤ deadline →
       N < st.nonces (st.streams streamId).employee →
       withdrawSigned st streamId N deadline relayerFee sig relayer now =
         .error .InvalidNonce) := by
  have hinv : ∀ (st : ManagerState) (streamId nonce deadline relayerFee : Nat) (sig : Sig)
      (relayer : Addr) (now : Nat), now ≤ deadline →
      nonce ≠ st.nonces (st.streams streamId).employee →
      withdrawSigned st streamId nonce deadline relayerFee sig relayer now =
        .error .InvalidNonce := by
    intro st streamId nonce deadline relayerFee sig relayer now hd hne
    simp only [withdrawSigned]
    rw [if_neg (not_lt.mpr hd), if_pos hne]
  refine ⟨hinv, ?_, ?_, ?_⟩
  · intro st streamId nonce deadline relayerFee sig relayer now st' rec tr h
    obtain ⟨hd, hn, hs, st2, hE, hbr⟩ := withdrawSigned_ok_shape h
    obtain ⟨-, -, -, -, -, -, -, hnon2, -⟩ := executeWithdraw_ok_shape hE
    have hstn : st'.nonces = st2.nonces := by
      rcases hbr with ⟨-, -, hst, -⟩ | ⟨-, hst, -⟩ <;> rw [hst]
    refine ⟨hn, ?_⟩
    rw [hstn, hnon2]
    simp [setNonce]
  · intro st op now st' tr h a
    exact step_ok_nonces h a
  · intro st streamId N deadline relayerFee sig relayer now hd hlt
    exact hinv st streamId N deadline relayerFee sig relayer now hd (Nat.ne_of_lt hlt)

/-- Fixture for the nonce witness: employee 3, rate 1/s, stored nonce 0. -/
def exC4State : ManagerState := mkState ⟨3, 1, 0, 0, true, false, 0, 0, false⟩

/-- A signature by employee 3 over payload (streamId 0, nonce 0,
deadline 1000). -/
def exC4Sig : Sig := ⟨3, 0, 0, 1000⟩

/-- The result of the accepted fixture signed withdrawal. -/
def exC4Out : ManagerState × WRec × List (Addr × Nat) :=
  (withdrawSigned exC4State 0 0 1000 0 exC4Sig 9 100).toOption.getD default

/-- Witness for claim C4: nonce 7 ≠ stored 0 is rejected; the accepted
nonce-0 withdrawal advances employee 3's nonce to 1; the step relation never
decreases it; replaying the nonce-0 signature afterwards fails
InvalidNonce. -/
theorem withdrawSigned_nonce_protocol_witness :
    withdrawSigned exC4State 0 7 1000 0 exC4Sig 9 100 = .error .InvalidNonce ∧
    exC4Out.1.nonces 3 = 0 + 1 ∧
    exC4State.nonces 3 ≤ exC4Out.1.nonces 3 ∧
    withdrawSigned exC4Out.1 0 0 1000 0 exC4Sig 9 200 = .error .InvalidNonce := by
  have hok : withdrawSigned exC4State 0 0 1000 0 exC4Sig 9 100 =
      .ok (exC4Out.1, exC4Out.2.1, exC4Out.2.2) := rfl
  have hstep : step exC4State (Op.withdrawSigned 0 0 1000 0 exC4Sig 9) 100 =
      .ok (exC4Out.1, exC4Out.2.2) := rfl
  exact ⟨withdrawSigned_nonce_protocol.1 exC4State 0 7 1000 0 exC4Sig 9 100
           (by decide) (by decide),
         (withdrawSigned_nonce_protocol.2.1 exC4State 0 0 1000 0 exC4Sig 9 100
           exC4Out.1 exC4Out.2.1 exC4Out.2.2 hok).2,
         withdrawSigned_nonce_protocol.2.2.1 exC4State _ 100 exC4Out.1 exC4Out.2.2
           hstep 3,
         withdrawSigned_nonce_protocol.2.2.2 exC4Out.1 0 0 1000 0 exC4Sig 9 200
           (by decide) (by decide)⟩

/-- Claim C5: cancelStream on an active stream clears the active flag,
settles the checkpoint to now and moves no funds; inactivity is preserved by
every reachable successor state; and both withdrawal paths fail on an
inactive stream — the direct path with StreamInactive, the signed path
always (and with StreamInactive once the signature layer accepts) — so
salary accrued before cancellation and not yet withdrawn is permanently
unclaimable. -/
theorem cancel_is_terminal :
    (∀ st streamId now st', cancelStream st streamId now = .ok st' →
       (st'.streams streamId).active = false ∧
       (st'.streams streamId).lastCheckpoint = now ∧
       step st (.cancelStream streamId) now = .ok (st', [])) ∧
    (∀ st st', Reaches st st' → ∀ streamId,
       (st.streams streamId).active = false → streamId < st.nextStreamId →
       (st'.streams streamId).active = false ∧ streamId < st'.nextStreamId) ∧
    (∀ st streamId now, (st.streams streamId).active = false →
       executeWithdraw st streamId now = .error (.StreamInactive streamId)) ∧
    (∀ (st : ManagerState) (streamId nonce deadline relayerFee : Nat) (sig : Sig)
       (relayer : Addr) (now : Nat), (st.streams streamId).active = false →
       (withdrawSigned st streamId nonce deadline relayerFee sig relayer now).isOk =
         false) ∧
    (∀ (st : ManagerState) (streamId nonce deadline relayerFee : Nat) (sig : Sig)
       (relayer : Addr) (now : Nat), (st.streams streamId).active = false →
       now ≤ deadline → nonce = st.nonces (st.streams streamId).employee →
       recover streamId nonce deadline sig = (st.streams streamId).employee →
       withdrawSigned st streamId nonce deadline relayerFee sig relayer now =
         .error (.StreamInactive streamId)) := by
  refine ⟨?_, ?_, ?_, ?_, ?_⟩
  · intro st streamId now st' h
    obtain ⟨hact, hst⟩ := cancelStream_ok_shape h
    refine ⟨?_, ?_, ?_⟩
    · rw [hst]
      simp [setStream]
    · rw [hst]
      simp [setStream]
    · simp [step, h, Except.map]
  · intro st st' h streamId hin hid
    exact reaches_preserves_inactive h hin hid
  · intro st streamId now hin
    simp [executeWithdraw, hin]
  · intro st streamId nonce deadline relayerFee sig relayer now hin
    simp only [withdrawSigned]
    split
    · rfl
    split
    · rfl
    split
    · rfl
    have hE : executeWithdraw (setNonce st (st.streams streamId).employee (nonce + 1))
        streamId now = .error (.StreamInactive streamId) := by
      have hin2 : ((setNonce st (st.streams streamId).employee (nonce + 1)).streams
          streamId).active = false := hin
      simp [executeWithdraw, hin2]
    rw [hE]
    rfl
  · intro st streamId nonce deadline relayerFee sig relayer now hin hd hn hs
    simp only [withdrawSigned]
    rw [if_neg (not_lt.mpr hd), if_neg (not_ne_iff.mpr hn),
        if_neg (not_ne_iff.mpr hs)]
    have hE : executeWithdraw (setNonce st (st.streams streamId).employee (nonce + 1))
        streamId now = .error (.StreamInactive streamId) := by
      have hin2 : ((setNonce st (st.streams streamId).employee (nonce + 1)).streams
          streamId).active = false := hin
      simp [executeWithdraw, hin2]
    rw [hE]

/-- Fixture for the cancellation witness: an active stream of rate 1 with
100 already accrued at the cancel time. -/
def exC5State : ManagerState := mkState ⟨3, 1, 0, 0, true, false, 0, 0, false⟩

/-- The fixture state after cancelling stream 0 at t = 100. -/
def exC5StC : ManagerState := (cancelStream exC5State 0 100).toOption.getD default

/-- A signature by employee 3 over payload (streamId 0, nonce 0,
deadline 1000). -/
def exC5Sig : Sig := ⟨3, 0, 0, 1000⟩

/-- Witness for claim C5: cancelling at t = 100 deactivates stream 0 with
checkpoint 100 and transfers nothing; the inactivity survives reachability;
both withdrawal paths then fail with StreamInactive. -/
theorem cancel_is_terminal_witness :
    (exC5StC.streams 0).active = false ∧
    (exC5StC.streams 0).lastCheckpoint = 100 ∧
    step exC5State (.cancelStream 0) 100 = .ok (exC5StC, []) ∧
    (exC5StC.streams 0).active = false ∧ 0 < exC5StC.nextStreamId ∧
    executeWithdraw exC5StC 0 200 = .error (.StreamInactive 0) ∧
    (withdrawSigned exC5StC 0 0 1000 0 exC5Sig 9 200).isOk = false ∧
    withdrawSigned exC5StC 0 0 1000 0 exC5Sig 9 200 = .error (.StreamInactive 0) := by
  have hc : cancelStream exC5State 0 100 = .ok exC5StC := rfl
  have h1 := cancel_is_terminal.1 exC5State 0 100 exC5StC hc
  have h2 := cancel_is_terminal.2.1 exC5StC exC5StC (Reaches.refl exC5StC) 0
    (by decide) (by decide)
  exact ⟨h1.1, h1.2.1, h1.2.2, h2.1, h2.2,
         cancel_is_terminal.2.2.1 exC5StC 0 200 (by decide),
         cancel_is_terminal.2.2.2.1 exC5StC 0 0 1000 0 exC5Sig 9 200 (by decide),
         cancel_is_terminal.2.2.2.2 exC5StC 0 0 1000 0 exC5Sig 9 200
           (by decide) (by decide) (by decide) (by decide)⟩

/-- Claim C6: in withdrawSigned with a positive relayer fee (and the
signature layer satisfied, the core withdrawal succeeding), the fee is paid
from the sponsorship pool: if the pool is short the whole call fails
InsufficientSponsorship (the Except model returns no state, matching the
EVM rollback); otherwise the pool decreases by exactly relayerFee, the
relayer is paid relayerFee on top of the core transfers, and the employee's
net payout is identical to the direct-withdraw net — the fee never comes
out of employee earnings. -/
theorem withdrawSigned_relayer_fee_sponsorship
    (st : ManagerState) (streamId nonce deadline relayerFee : Nat) (sig : Sig)
    (relayer : Addr) (now : Nat)
    (hfee : 0 < relayerFee)
    (hd : now ≤ deadline)
    (hn : nonce = st.nonces (st.streams streamId).employee)
    (hs : recover streamId nonce deadline sig = (st.streams streamId).employee)
    (st2 : ManagerState) (rec : WRec)
    (hE : executeWithdraw (setNonce st (st.streams streamId).employee (nonce + 1))
      streamId now = .ok (st2, rec)) :
    st2.sponsorshipPool = st.sponsorshipPool ∧
    (st.sponsorshipPool < relayerFee →
       withdrawSigned st streamId nonce deadline relayerFee sig relayer now =
         .error .InsufficientSponsorship) ∧
    (relayerFee ≤ st.sponsorshipPool →
       withdrawSigned st streamId nonce deadline relayerFee sig relayer now =
         .ok ({ st2 with sponsorshipPool := st2.sponsorshipPool - relayerFee },
              rec, rec.transfers ++ [(relayer, relayerFee)])) ∧
    (∀ st3 rec3, executeWithdraw st streamId now = .ok (st3, rec3) →
       rec3.net = rec.net) := by
  have hpool : st2.sponsorshipPool = st.sponsorshipPool := by
    obtain ⟨-, -, -, -, -, -, -, -, -, hsp, -⟩ := executeWithdraw_ok_shape hE
    exact hsp
  have hw : withdrawSigned st streamId nonce deadline relayerFee sig relayer now =
      (if st2.sponsorshipPool < relayerFee then .error .InsufficientSponsorship
       else .ok ({ st2 with sponsorshipPool := st2.sponsorshipPool - relayerFee },
                 rec, rec.transfers ++ [(relayer, relayerFee)])) := by
    simp only [withdrawSigned]
    rw [if_neg (not_lt.mpr hd), if_neg (not_ne_iff.mpr hn), if_neg (not_ne_iff.mpr hs),
        hE]
    dsimp only
    rw [if_pos hfee]
  refine ⟨hpool, ?_, ?_, ?_⟩
  · intro hlt
    rw [hw, if_pos (by rw [hpool]; exact hlt)]
  · intro hle
    rw [hw, if_neg (not_lt.mpr (by rw [hpool]; exact hle))]
  · intro st3 rec3 h3
    obtain ⟨-, -, hg1, ht1, hn1, -⟩ := executeWithdraw_ok_shape hE
    obtain ⟨-, -, hg2, ht2, hn2, -⟩ := executeWithdraw_ok_shape h3
    have hge : rec.gross = rec3.gross := by
      rw [hg1, hg2]
      rfl
    have hte : rec.tax = rec3.tax := by
      rw [ht1, ht2]
      rfl
    rw [hn1, hn2, hge, hte]

/-- Fixture for the relayer-fee witness: employee 3, rate 1/s, pool 10^21;
a variant with the pool drained to 3. -/
def exC6State : ManagerState := mkState ⟨3, 1, 0, 0, true, false, 0, 0, false⟩

/-- The fixture with the sponsorship pool drained to 3. -/
def exC6Low : ManagerState :=
  ⟨1, 2, ⟨10 ^ 24, 0, 0, 0⟩, 1, 3,
   fun j => if j = 0 then ⟨3, 1, 0, 0, true, false, 0, 0, false⟩ else default, fun _ => 0⟩

/-- A signature by employee 3 over payload (streamId 0, nonce 0,
deadline 1000). -/
def exC6Sig : Sig := ⟨3, 0, 0, 1000⟩

/-- The core-withdrawal result under the bumped nonce, funded fixture. -/
def exC6Core : ManagerState × WRec :=
  (executeWithdraw (setNonce exC6State 3 1) 0 100).toOption.getD default

/-- The core-withdrawal result under the bumped nonce, drained fixture. -/
def exC6LowCore : ManagerState × WRec :=
  (executeWithdraw (setNonce exC6Low 3 1) 0 100).toOption.getD default

/-- The direct-withdraw result on the funded fixture. -/
def exC6Direct : ManagerState × WRec :=
  (executeWithdraw exC6State 0 100).toOption.getD default

/-- Witness for claim C6: with fee 5 and a funded pool the call succeeds,
pays (9, 5) to the relayer after the core transfers and debits the pool by
5; with the pool at 3 < 5 it fails InsufficientSponsorship; the employee's
net equals the direct-withdraw net. -/
theorem withdrawSigned_relayer_fee_sponsorship_witness :
    withdrawSigned exC6State 0 0 1000 5 exC6Sig 9 100 =
      .ok ({ exC6Core.1 with sponsorshipPool := exC6Core.1.sponsorshipPool - 5 },
           exC6Core.2, exC6Core.2.transfers ++ [(9, 5)]) ∧
    withdrawSigned exC6Low 0 0 1000 5 exC6Sig 9 100 =
      .error .InsufficientSponsorship ∧
    exC6Direct.2.net = exC6Core.2.net := by
  have hE : executeWithdraw (setNonce exC6State 3 1) 0 100 =
      .ok (exC6Core.1, exC6Core.2) := rfl
  have hEL : executeWithdraw (setNonce exC6Low 3 1) 0 100 =
      .ok (exC6LowCore.1, exC6LowCore.2) := rfl
  have hD : executeWithdraw exC6State 0 100 = .ok (exC6Direct.1, exC6Direct.2) := rfl
  have h1 := withdrawSigned_relayer_fee_sponsorship exC6State 0 0 1000 5 exC6Sig 9 100
    (by decide) (by decide) (by decide) (by decide) exC6Core.1 exC6Core.2 hE
  have h2 := withdrawSigned_relayer_fee_sponsorship exC6Low 0 0 1000 5 exC6Sig 9 100
    (by decide) (by decide) (by decide) (by decide) exC6LowCore.1 exC6LowCore.2 hEL
  exact ⟨h1.2.2.1 (by decide), h2.2.1 (by decide), h1.2.2.2 exC6Direct.1 exC6Direct.2 hD⟩

end PayStream
